import Mathlib

/-!
Shallow embedding of the `hemul` MOS 6502 emulator (crate `hemul`, Rust).

Bytes and words are `Nat`s carrying the invariants `< 256` / `< 65536` as
hypotheses where needed.  Rust `u16` addition and subtraction with the plain
`+` / `-` operators panic on overflow under the debug profile that the
repository's test-suite runs, so they are embedded as checked operations
returning `Except`; the places where the source explicitly uses
`wrapping_add` / `wrapping_sub` are embedded with `% 256` arithmetic.
Rust panics (including `assert!`, `todo!` and index-out-of-range) are
embedded as the `CpuErr.panic` error value, distinct from the typed
`CpuError` variants of `src/hemul/src/cpu/mod.rs`.
-/

namespace Hemul

/-- Errors surfaced by the embedded code.  `badOpCode`, `outOfBounds` and
`invalidAddressMode` mirror `CpuError` in `cpu/mod.rs`; `other` mirrors the
stringly-typed `Box<dyn Error>` values built from string literals; `panic`
models a Rust panic (assert failure, `todo!`, overflow in debug, slice index
out of range). -/
inductive CpuErr where
  | badOpCode (b : Nat)
  | outOfBounds (w : Nat)
  | invalidAddressMode
  | other (s : String)
  | panic (s : String)
deriving DecidableEq, Repr

/-- Checked `u16` addition: Rust `a + b` on `u16`, which panics on overflow
under the debug profile. -/
def u16add (a b : Nat) : Except CpuErr Nat :=
  if a + b ≤ 0xFFFF then .ok (a + b) else .error (.panic "attempt to add with overflow")

/-- Checked `u16` subtraction: Rust `a - b` on `u16`, which panics on
underflow under the debug profile. -/
def u16sub (a b : Nat) : Except CpuErr Nat :=
  if b ≤ a then .ok (a - b) else .error (.panic "attempt to subtract with overflow")

/-- `Address` from `cpu/address.rs`: little-endian pair of byte (`addr`) and
page. -/
inductive Address where
  | zero (b : Nat)
  | full (addr page : Nat)

/-- `impl From<Address> for Word`: `(page << 8) | addr`. -/
def Address.toWord : Address → Nat
  | .zero b => (0 <<< 8) ||| b
  | .full addr page => (page <<< 8) ||| addr

/-- `impl From<Word> for Address`: split into low byte and page. -/
def Address.ofWord (w : Nat) : Address :=
  .full (w &&& 0xFF) (w >>> 8)

/-- CPU mode (`Mode` in `cpu/mod.rs`): `Fast` executes one instruction per
tick, `Original n` burns `n` cycles before the next fetch. -/
inductive Mode where
  | fast
  | original (n : Nat)

/-- CPU state plus its addressable substrate (`Cpu<T>` in `cpu/mod.rs`,
with the substrate `T: Addressable` embedded as the pair
`inBounds`/`mem`, matching the `inside_bounds` / `Index` / `IndexMut`
operations of the `Addressable` trait for a memory-like device). -/
structure Cpu where
  inBounds : Nat → Bool
  mem : Nat → Nat
  PC : Nat
  SP : Nat
  A : Nat
  X : Nat
  Y : Nat
  C : Bool
  Z : Bool
  I : Bool
  D : Bool
  B : Bool
  V : Bool
  N : Bool
  mode : Mode

-- Status register flag bit constants from `cpu/mod.rs`.
def C_FLAG : Nat := 0x40
def Z_FLAG : Nat := 0x20
def I_FLAG : Nat := 0x10
def D_FLAG : Nat := 0x08
def B_FLAG : Nat := 0x04
def V_FLAG : Nat := 0x02
def N_FLAG : Nat := 0x01

def SP_PAGE : Nat := 0x01
def SP_ADDR : Nat := 0xFF
def NMIB : Nat := 0xFFFA
def RESB : Nat := 0xFFFC
def IRQB : Nat := 0xFFFE

/-- Pointwise memory update (the effect of `IndexMut` assignment). -/
def upd (m : Nat → Nat) (a v : Nat) : Nat → Nat :=
  fun x => if x = a then v else m x

/-- `Cpu::read`: bounds-checked byte read. -/
def Cpu.read (s : Cpu) (addr : Nat) : Except CpuErr Nat :=
  if s.inBounds addr then .ok (s.mem addr) else .error (.outOfBounds addr)

/-- `Cpu::write`: bounds-checked byte write. -/
def Cpu.write (s : Cpu) (addr v : Nat) : Except CpuErr Cpu :=
  if s.inBounds addr then .ok { s with mem := upd s.mem addr v }
  else .error (.outOfBounds addr)

/-- `Cpu::read_word`: reads `addr` and `addr + 1`, little-endian.  The
`a2 = a1 + 1` computation happens before either read and is checked
`u16` arithmetic. -/
def Cpu.read_word (s : Cpu) (a1 : Nat) : Except CpuErr Nat := do
  let a2 ← u16add a1 1
  let lo ← s.read a1
  let page ← s.read a2
  .ok (Address.toWord (.full lo page))

/-- `Cpu::fetch`: read the byte at `PC`, then `PC += 1`. -/
def Cpu.fetch (s : Cpu) : Except CpuErr (Nat × Cpu) := do
  let data ← s.read s.PC
  let pc' ← u16add s.PC 1
  .ok (data, { s with PC := pc' })

/-- `Cpu::fetch_word`: read the word at `PC`, then `PC += 2`. -/
def Cpu.fetch_word (s : Cpu) : Except CpuErr (Nat × Cpu) := do
  let data ← s.read_word s.PC
  let pc' ← u16add s.PC 2
  .ok (data, { s with PC := pc' })

/-- `Cpu::stack_push`: write to `$0100 | SP`, then `SP ← SP.wrapping_sub(1)`. -/
def Cpu.stack_push (s : Cpu) (byte : Nat) : Except CpuErr Cpu := do
  let s' ← s.write (Address.toWord (.full s.SP SP_PAGE)) byte
  .ok { s' with SP := (s'.SP + 255) % 256 }

/-- `Cpu::stack_pop`: `SP ← SP.wrapping_add(1)`, then read `$0100 | SP`. -/
def Cpu.stack_pop (s : Cpu) : Except CpuErr (Nat × Cpu) := do
  let sp' := (s.SP + 1) % 256
  let data ← Cpu.read { s with SP := sp' } (Address.toWord (.full sp' SP_PAGE))
  .ok (data, { s with SP := sp' })

/-- `Cpu::status_get`: pack the seven flags into a byte. -/
def Cpu.status_get (s : Cpu) : Nat :=
  let r := 0
  let r := if s.C then r ||| C_FLAG else r
  let r := if s.Z then r ||| Z_FLAG else r
  let r := if s.I then r ||| I_FLAG else r
  let r := if s.D then r ||| D_FLAG else r
  let r := if s.B then r ||| B_FLAG else r
  let r := if s.V then r ||| V_FLAG else r
  let r := if s.N then r ||| N_FLAG else r
  r

/-- The 56 instruction mnemonics of `OpCode` used by `cpu/mod.rs`. -/
inductive OpCode where
  | Lda | Ldx | Ldy | Sta | Stx | Sty
  | Tax | Tay | Txa | Tya | Tsx | Txs
  | Pha | Php | Pla | Plp
  | And | Eor | Ora | Bit
  | Adc | Sbc | Cmp | Cpx | Cpy
  | Inc | Inx | Iny | Dec | Dex | Dey
  | Asl | Lsr | Rol | Ror
  | Jmp | Jsr | Rts
  | Bcc | Bcs | Beq | Bmi | Bne | Bpl | Bvc | Bvs
  | Clc | Cld | Cli | Clv | Sec | Sed | Sei
  | Brk | Nop | Rti
deriving DecidableEq, Repr

/-- The addressing modes matched by `Cpu::fetch_addr` in `cpu/mod.rs`. -/
inductive AddressMode where
  | implicit | accumulator | immediate
  | zeroPage | zeroPageX | zeroPageY
  | relative | absolute | absoluteX | absoluteY
  | indirect | indexedIndirect | indirectIndexed
deriving DecidableEq, Repr

/-- Base cycle counts, tagged as in `Cycles`: plain, page-cross penalty
eligible, or branch penalty eligible. -/
inductive Cycles where
  | constant (n : Nat)
  | page (n : Nat)
  | branch (n : Nat)
deriving DecidableEq, Repr

/-- The cycle count carried by any `Cycles` value (the
`Constant(c) | Page(c) | Branch(c) => c` match in `Cpu::tick`). -/
def Cycles.val : Cycles → Nat
  | .constant n => n
  | .page n => n
  | .branch n => n

/-- A decoded instruction `Op(OpCode, AddressMode, Cycles)`. -/
structure Op where
  code : OpCode
  mode : AddressMode
  cycles : Cycles
deriving DecidableEq, Repr

/-- Modelled from the spec: the decode table `TryFrom<Byte> for Op` used by
`cpu/mod.rs` is not under `src/` (only an older `OpParser` table in
`cpu/instructions.rs` is).  Per spec §4.4.8 the table is total over assigned
standard MOS 6502 opcode bytes with the documented base cycle counts and
yields `BadOpCode(b)` for unassigned bytes; byte assignments, modes and
cycle counts follow the repository's own `OpParser::parse` table, with the
page-cross / branch penalty eligibility recorded in that table's comments. -/
def tryIntoOp (b : Nat) : Except CpuErr Op :=
  match b with
  | 0xA9 => .ok ⟨.Lda, .immediate, .constant 2⟩
  | 0xA5 => .ok ⟨.Lda, .zeroPage, .constant 3⟩
  | 0xB5 => .ok ⟨.Lda, .zeroPageX, .constant 4⟩
  | 0xAD => .ok ⟨.Lda, .absolute, .constant 4⟩
  | 0xBD => .ok ⟨.Lda, .absoluteX, .page 4⟩
  | 0xB9 => .ok ⟨.Lda, .absoluteY, .page 4⟩
  | 0xA1 => .ok ⟨.Lda, .indexedIndirect, .constant 6⟩
  | 0xB1 => .ok ⟨.Lda, .indirectIndexed, .page 5⟩
  | 0xA2 => .ok ⟨.Ldx, .immediate, .constant 2⟩
  | 0xA6 => .ok ⟨.Ldx, .zeroPage, .constant 3⟩
  | 0xB6 => .ok ⟨.Ldx, .zeroPageY, .constant 4⟩
  | 0xAE => .ok ⟨.Ldx, .absolute, .constant 4⟩
  | 0xBE => .ok ⟨.Ldx, .absoluteY, .page 4⟩
  | 0xA0 => .ok ⟨.Ldy, .immediate, .constant 2⟩
  | 0xA4 => .ok ⟨.Ldy, .zeroPage, .constant 3⟩
  | 0xB4 => .ok ⟨.Ldy, .zeroPageX, .constant 4⟩
  | 0xAC => .ok ⟨.Ldy, .absolute, .constant 4⟩
  | 0xBC => .ok ⟨.Ldy, .absoluteX, .page 4⟩
  | 0x85 => .ok ⟨.Sta, .zeroPage, .constant 3⟩
  | 0x95 => .ok ⟨.Sta, .zeroPageX, .constant 4⟩
  | 0x8D => .ok ⟨.Sta, .absolute, .constant 4⟩
  | 0x9D => .ok ⟨.Sta, .absoluteX, .constant 5⟩
  | 0x99 => .ok ⟨.Sta, .absoluteY, .constant 5⟩
  | 0x81 => .ok ⟨.Sta, .indexedIndirect, .constant 6⟩
  | 0x91 => .ok ⟨.Sta, .indirectIndexed, .constant 6⟩
  | 0x86 => .ok ⟨.Stx, .zeroPage, .constant 3⟩
  | 0x96 => .ok ⟨.Stx, .zeroPageY, .constant 4⟩
  | 0x8E => .ok ⟨.Stx, .absolute, .constant 4⟩
  | 0x84 => .ok ⟨.Sty, .zeroPage, .constant 3⟩
  | 0x94 => .ok ⟨.Sty, .zeroPageX, .constant 4⟩
  | 0x8C => .ok ⟨.Sty, .absolute, .constant 4⟩
  | 0xAA => .ok ⟨.Tax, .implicit, .constant 2⟩
  | 0xA8 => .ok ⟨.Tay, .implicit, .constant 2⟩
  | 0x8A => .ok ⟨.Txa, .implicit, .constant 2⟩
  | 0x98 => .ok ⟨.Tya, .implicit, .constant 2⟩
  | 0xBA => .ok ⟨.Tsx, .implicit, .constant 2⟩
  | 0x9A => .ok ⟨.Txs, .implicit, .constant 2⟩
  | 0x48 => .ok ⟨.Pha, .implicit, .constant 3⟩
  | 0x08 => .ok ⟨.Php, .implicit, .constant 3⟩
  | 0x68 => .ok ⟨.Pla, .implicit, .constant 4⟩
  | 0x28 => .ok ⟨.Plp, .implicit, .constant 4⟩
  | 0x29 => .ok ⟨.And, .immediate, .constant 2⟩
  | 0x25 => .ok ⟨.And, .zeroPage, .constant 3⟩
  | 0x35 => .ok ⟨.And, .zeroPageX, .constant 4⟩
  | 0x2D => .ok ⟨.And, .absolute, .constant 4⟩
  | 0x3D => .ok ⟨.And, .absoluteX, .page 4⟩
  | 0x39 => .ok ⟨.And, .absoluteY, .page 4⟩
  | 0x21 => .ok ⟨.And, .indexedIndirect, .constant 6⟩
  | 0x31 => .ok ⟨.And, .indirectIndexed, .page 5⟩
  | 0x49 => .ok ⟨.Eor, .immediate, .constant 2⟩
  | 0x45 => .ok ⟨.Eor, .zeroPage, .constant 3⟩
  | 0x55 => .ok ⟨.Eor, .zeroPageX, .constant 4⟩
  | 0x4D => .ok ⟨.Eor, .absolute, .constant 4⟩
  | 0x5D => .ok ⟨.Eor, .absoluteX, .page 4⟩
  | 0x59 => .ok ⟨.Eor, .absoluteY, .page 4⟩
  | 0x41 => .ok ⟨.Eor, .indexedIndirect, .constant 6⟩
  | 0x51 => .ok ⟨.Eor, .indirectIndexed, .page 5⟩
  | 0x09 => .ok ⟨.Ora, .immediate, .constant 2⟩
  | 0x05 => .ok ⟨.Ora, .zeroPage, .constant 3⟩
  | 0x15 => .ok ⟨.Ora, .zeroPageX, .constant 4⟩
  | 0x0D => .ok ⟨.Ora, .absolute, .constant 4⟩
  | 0x1D => .ok ⟨.Ora, .absoluteX, .page 4⟩
  | 0x19 => .ok ⟨.Ora, .absoluteY, .page 4⟩
  | 0x01 => .ok ⟨.Ora, .indexedIndirect, .constant 6⟩
  | 0x11 => .ok ⟨.Ora, .indirectIndexed, .page 5⟩
  | 0x24 => .ok ⟨.Bit, .zeroPage, .constant 3⟩
  | 0x2C => .ok ⟨.Bit, .absolute, .constant 4⟩
  | 0x69 => .ok ⟨.Adc, .immediate, .constant 2⟩
  | 0x65 => .ok ⟨.Adc, .zeroPage, .constant 3⟩
  | 0x75 => .ok ⟨.Adc, .zeroPageX, .constant 4⟩
  | 0x6D => .ok ⟨.Adc, .absolute, .constant 4⟩
  | 0x7D => .ok ⟨.Adc, .absoluteX, .page 4⟩
  | 0x79 => .ok ⟨.Adc, .absoluteY, .page 4⟩
  | 0x61 => .ok ⟨.Adc, .indexedIndirect, .constant 6⟩
  | 0x71 => .ok ⟨.Adc, .indirectIndexed, .page 5⟩
  | 0xE9 => .ok ⟨.Sbc, .immediate, .constant 2⟩
  | 0xE5 => .ok ⟨.Sbc, .zeroPage, .constant 3⟩
  | 0xF5 => .ok ⟨.Sbc, .zeroPageX, .constant 4⟩
  | 0xED => .ok ⟨.Sbc, .absolute, .constant 4⟩
  | 0xFD => .ok ⟨.Sbc, .absoluteX, .page 4⟩
  | 0xF9 => .ok ⟨.Sbc, .absoluteY, .page 4⟩
  | 0xE1 => .ok ⟨.Sbc, .indexedIndirect, .constant 6⟩
  | 0xF1 => .ok ⟨.Sbc, .indirectIndexed, .page 5⟩
  | 0xC9 => .ok ⟨.Cmp, .immediate, .constant 2⟩
  | 0xC5 => .ok ⟨.Cmp, .zeroPage, .constant 3⟩
  | 0xD5 => .ok ⟨.Cmp, .zeroPageX, .constant 4⟩
  | 0xCD => .ok ⟨.Cmp, .absolute, .constant 4⟩
  | 0xDD => .ok ⟨.Cmp, .absoluteX, .page 4⟩
  | 0xD9 => .ok ⟨.Cmp, .absoluteY, .page 4⟩
  | 0xC1 => .ok ⟨.Cmp, .indexedIndirect, .constant 6⟩
  | 0xD1 => .ok ⟨.Cmp, .indirectIndexed, .page 5⟩
  | 0xE0 => .ok ⟨.Cpx, .immediate, .constant 2⟩
  | 0xE4 => .ok ⟨.Cpx, .zeroPage, .constant 3⟩
  | 0xEC => .ok ⟨.Cpx, .absolute, .constant 4⟩
  | 0xC0 => .ok ⟨.Cpy, .immediate, .constant 2⟩
  | 0xC4 => .ok ⟨.Cpy, .zeroPage, .constant 3⟩
  | 0xCC => .ok ⟨.Cpy, .absolute, .constant 4⟩
  | 0xE6 => .ok ⟨.Inc, .zeroPage, .constant 5⟩
  | 0xF6 => .ok ⟨.Inc, .zeroPageX, .constant 6⟩
  | 0xEE => .ok ⟨.Inc, .absolute, .constant 6⟩
  | 0xFE => .ok ⟨.Inc, .absoluteX, .constant 7⟩
  | 0xE8 => .ok ⟨.Inx, .implicit, .constant 2⟩
  | 0xC8 => .ok ⟨.Iny, .implicit, .constant 2⟩
  | 0xC6 => .ok ⟨.Dec, .zeroPage, .constant 5⟩
  | 0xD6 => .ok ⟨.Dec, .zeroPageX, .constant 6⟩
  | 0xCE => .ok ⟨.Dec, .absolute, .constant 6⟩
  | 0xDE => .ok ⟨.Dec, .absoluteX, .constant 7⟩
  | 0xCA => .ok ⟨.Dex, .implicit, .constant 2⟩
  | 0x88 => .ok ⟨.Dey, .implicit, .constant 2⟩
  | 0x0A => .ok ⟨.Asl, .accumulator, .constant 2⟩
  | 0x06 => .ok ⟨.Asl, .zeroPage, .constant 5⟩
  | 0x16 => .ok ⟨.Asl, .zeroPageX, .constant 6⟩
  | 0x0E => .ok ⟨.Asl, .absolute, .constant 6⟩
  | 0x1E => .ok ⟨.Asl, .absoluteX, .constant 7⟩
  | 0x4A => .ok ⟨.Lsr, .accumulator, .constant 2⟩
  | 0x46 => .ok ⟨.Lsr, .zeroPage, .constant 5⟩
  | 0x56 => .ok ⟨.Lsr, .zeroPageX, .constant 6⟩
  | 0x4E => .ok ⟨.Lsr, .absolute, .constant 6⟩
  | 0x5E => .ok ⟨.Lsr, .absoluteX, .constant 7⟩
  | 0x2A => .ok ⟨.Rol, .accumulator, .constant 2⟩
  | 0x26 => .ok ⟨.Rol, .zeroPage, .constant 5⟩
  | 0x36 => .ok ⟨.Rol, .zeroPageX, .constant 6⟩
  | 0x2E => .ok ⟨.Rol, .absolute, .constant 6⟩
  | 0x3E => .ok ⟨.Rol, .absoluteX, .constant 7⟩
  | 0x6A => .ok ⟨.Ror, .accumulator, .constant 2⟩
  | 0x66 => .ok ⟨.Ror, .zeroPage, .constant 5⟩
  | 0x76 => .ok ⟨.Ror, .zeroPageX, .constant 6⟩
  | 0x6E => .ok ⟨.Ror, .absolute, .constant 6⟩
  | 0x7E => .ok ⟨.Ror, .absoluteX, .constant 7⟩
  | 0x4C => .ok ⟨.Jmp, .absolute, .constant 3⟩
  | 0x6C => .ok ⟨.Jmp, .indirect, .constant 5⟩
  | 0x20 => .ok ⟨.Jsr, .implicit, .constant 6⟩
  | 0x60 => .ok ⟨.Rts, .implicit, .constant 6⟩
  | 0x90 => .ok ⟨.Bcc, .relative, .branch 2⟩
  | 0xB0 => .ok ⟨.Bcs, .relative, .branch 2⟩
  | 0xF0 => .ok ⟨.Beq, .relative, .branch 2⟩
  | 0x30 => .ok ⟨.Bmi, .relative, .branch 2⟩
  | 0xD0 => .ok ⟨.Bne, .relative, .branch 2⟩
  | 0x10 => .ok ⟨.Bpl, .relative, .branch 2⟩
  | 0x50 => .ok ⟨.Bvc, .relative, .branch 2⟩
  | 0x70 => .ok ⟨.Bvs, .relative, .branch 2⟩
  | 0x18 => .ok ⟨.Clc, .implicit, .constant 2⟩
  | 0xD8 => .ok ⟨.Cld, .implicit, .constant 2⟩
  | 0x58 => .ok ⟨.Cli, .implicit, .constant 2⟩
  | 0xB8 => .ok ⟨.Clv, .implicit, .constant 2⟩
  | 0x38 => .ok ⟨.Sec, .implicit, .constant 2⟩
  | 0xF8 => .ok ⟨.Sed, .implicit, .constant 2⟩
  | 0x78 => .ok ⟨.Sei, .implicit, .constant 2⟩
  | 0x00 => .ok ⟨.Brk, .implicit, .constant 7⟩
  | 0xEA => .ok ⟨.Nop, .implicit, .constant 2⟩
  | 0x40 => .ok ⟨.Rti, .implicit, .constant 6⟩
  | _ => .error (.badOpCode b)

/-- `Cpu::read_op`: decode the byte at `PC` without advancing `PC`. -/
def Cpu.read_op (s : Cpu) : Except CpuErr Op := do
  let b ← s.read s.PC
  tryIntoOp b

/-- `Cpu::fetch_op`: decode the byte at `PC`, then `PC += 1`. -/
def Cpu.fetch_op (s : Cpu) : Except CpuErr (Op × Cpu) := do
  let op ← s.read_op
  let pc' ← u16add s.PC 1
  .ok (op, { s with PC := pc' })

/-- `Cpu::fetch_addr`: effective-address computation per addressing mode.
`Indirect` is `todo!()` in the source (a panic); `AbsoluteX` / `AbsoluteY`
use plain (checked) `u16` addition, while the zero-page indexed modes use
`wrapping_add` on the byte. -/
def Cpu.fetch_addr (s : Cpu) (mode : AddressMode) : Except CpuErr (Nat × Cpu) :=
  match mode with
  | .accumulator | .relative | .implicit => .error .invalidAddressMode
  | .immediate => do
      let pc' ← u16add s.PC 1
      .ok (pc' - 1, { s with PC := pc' })
  | .zeroPage => do
      let (b, s) ← s.fetch
      .ok (Address.toWord (.zero b), s)
  | .zeroPageX => do
      let (b, s) ← s.fetch
      .ok (Address.toWord (.zero ((b + s.X) % 256)), s)
  | .zeroPageY => do
      let (b, s) ← s.fetch
      .ok (Address.toWord (.zero ((b + s.Y) % 256)), s)
  | .absolute => s.fetch_word
  | .absoluteX => do
      let (w, s) ← s.fetch_word
      let a ← u16add w s.X
      .ok (a, s)
  | .absoluteY => do
      let (w, s) ← s.fetch_word
      let a ← u16add w s.Y
      .ok (a, s)
  | .indirect => .error (.panic "not yet implemented")
  | .indexedIndirect => do
      let (zp, s) ← s.fetch
      let a ← s.read_word ((zp + s.X) % 256)
      .ok (a, s)
  | .indirectIndexed => do
      let (zp, s) ← s.fetch
      let t ← s.read_word (Address.toWord (.zero zp))
      let a ← u16add t s.Y
      .ok (a, s)

/-- `Cpu::status_set`: unpack a byte into the seven flags, then
`assert!(!self.D)` — the assert panics when the decimal bit is set. -/
def Cpu.status_set (s : Cpu) (status : Nat) : Except CpuErr Cpu :=
  let s' := { s with
    C := decide (0 < status &&& C_FLAG)
    Z := decide (0 < status &&& Z_FLAG)
    I := decide (0 < status &&& I_FLAG)
    D := decide (0 < status &&& D_FLAG)
    B := decide (0 < status &&& B_FLAG)
    V := decide (0 < status &&& V_FLAG)
    N := decide (0 < status &&& N_FLAG) }
  if s'.D then .error (.panic "Decimal Mode not supported") else .ok s'

/-- `Interruptible::interrupt for Cpu` (`cpu/mod.rs`): maskable-IRQ check,
push the page then the low byte of `PC - 1`, load `PC` from the vector,
push the packed status, set `I`. -/
def interruptFn (tp : Nat) (s : Cpu) : Except CpuErr Cpu := do
  let int_addr := match tp with
    | 0 => IRQB
    | _ => NMIB
  if s.I && (int_addr == IRQB) then .ok s
  else
    let pcm1 ← u16sub s.PC 1
    let s ← s.stack_push (pcm1 >>> 8)
    let s ← s.stack_push (pcm1 &&& 0xFF)
    let pc' ← s.read_word int_addr
    let s := { s with PC := pc' }
    let s ← s.stack_push s.status_get
    .ok { s with I := true }

/-- The `branch!` macro of `cpu/mod.rs`: fetch the offset byte, and when the
condition holds set `PC` to `u16::try_from(i32::from(PC) + i32::from(offset))`.
The offset is a `u8`, so `i32::from(offset)` is its unsigned value — there is
no sign extension — and `try_from` fails only above `0xFFFF`.  Returns
whether the branch was taken. -/
def branchStep (s : Cpu) (cond : Cpu → Bool) : Except CpuErr (Bool × Cpu) := do
  let (offset, s) ← s.fetch
  if cond s then
    if s.PC + offset ≤ 0xFFFF then .ok (true, { s with PC := s.PC + offset })
    else .error (.other "failed to calculate offset")
  else .ok (false, s)

/-- `flags_zn!`: `Z ← r == 0`, `N ← r & 0x80 > 0`. -/
def flagsZN (s : Cpu) (r : Nat) : Cpu :=
  { s with Z := decide (r = 0), N := decide (0 < r &&& 0x80) }

/-- The opcode dispatch of `Cpu::tick` (`cpu/mod.rs`), one arm per
`(OpCode, AddressMode)` pattern of the source `match`, threading the
remaining-cycle count `noop` (incremented by taken branches).  `u8`
`overflowing_add` / `overflowing_sub` / `wrapping_*` arithmetic is embedded
as `% 256` arithmetic on byte values; `todo!` arms are panics. -/
def execOp (code : OpCode) (mode : AddressMode) (noop : Nat) (s : Cpu) :
    Except CpuErr (Cpu × Nat) := do
  match code, mode with
  | .Lda, mode => do
      let (addr, s) ← s.fetch_addr mode
      let d ← s.read addr
      .ok (flagsZN { s with A := d } d, noop)
  | .Ldx, mode => do
      let (addr, s) ← s.fetch_addr mode
      let d ← s.read addr
      .ok (flagsZN { s with X := d } d, noop)
  | .Ldy, mode => do
      let (addr, s) ← s.fetch_addr mode
      let d ← s.read addr
      .ok (flagsZN { s with Y := d } d, noop)
  | .Sta, mode => do
      let (addr, s) ← s.fetch_addr mode
      let s ← s.write addr s.A
      .ok (s, noop)
  | .Stx, mode => do
      let (addr, s) ← s.fetch_addr mode
      let s ← s.write addr s.X
      .ok (s, noop)
  | .Sty, mode => do
      let (addr, s) ← s.fetch_addr mode
      let s ← s.write addr s.Y
      .ok (s, noop)
  | .Tax, _ => .ok (flagsZN { s with X := s.A } s.A, noop)
  | .Tay, _ => .ok (flagsZN { s with Y := s.A } s.A, noop)
  | .Txa, _ => .ok (flagsZN { s with A := s.X } s.X, noop)
  | .Tya, _ => .ok (flagsZN { s with A := s.Y } s.Y, noop)
  | .Tsx, _ => .ok (flagsZN { s with X := s.SP } s.SP, noop)
  | .Txs, _ => .ok ({ s with SP := s.X }, noop)
  | .Pha, _ => do
      let s ← s.stack_push s.A
      .ok (s, noop)
  | .Php, _ => do
      let s ← s.stack_push s.status_get
      .ok (s, noop)
  | .Pla, _ => do
      let (d, s) ← s.stack_pop
      .ok (flagsZN { s with A := d } d, noop)
  | .Plp, _ => do
      let (st, s) ← s.stack_pop
      let s ← s.status_set st
      .ok (s, noop)
  | .And, mode => do
      let (addr, s) ← s.fetch_addr mode
      let d ← s.read addr
      let a := s.A &&& d
      .ok (flagsZN { s with A := a } a, noop)
  | .Eor, mode => do
      let (addr, s) ← s.fetch_addr mode
      let d ← s.read addr
      let a := s.A ^^^ d
      .ok (flagsZN { s with A := a } a, noop)
  | .Ora, mode => do
      let (addr, s) ← s.fetch_addr mode
      let d ← s.read addr
      let a := s.A ||| d
      .ok (flagsZN { s with A := a } a, noop)
  | .Bit, mode => do
      let (addr, s) ← s.fetch_addr mode
      let d ← s.read addr
      .ok ({ s with
              Z := decide (d &&& s.A = 0)
              N := decide (0 < d &&& 0x80)
              V := decide (0 < d &&& 0x40) }, noop)
  | .Adc, mode => do
      let (addr, s) ← s.fetch_addr mode
      let d ← s.read addr
      let result1 := (s.A + d) % 256
      let carry1 := decide (256 ≤ s.A + d)
      let c := if s.C then 1 else 0
      let result2 := (result1 + c) % 256
      let carry2 := decide (256 ≤ result1 + c)
      .ok (flagsZN { s with A := result2, C := carry1 || carry2 } result2, noop)
  | .Sbc, mode => do
      let (addr, s) ← s.fetch_addr mode
      let d ← s.read addr
      let result1 := (s.A + 256 - d) % 256
      let carry1 := decide (s.A < d)
      let nc := if s.C then 0 else 1
      let result2 := (result1 + 256 - nc) % 256
      let carry2 := decide (result1 < nc)
      .ok (flagsZN { s with A := result2, C := !(carry1 || carry2) } result2, noop)
  | .Cmp, mode => do
      let (addr, s) ← s.fetch_addr mode
      let d ← s.read addr
      let res := (s.A + 256 - d) % 256
      .ok ({ s with
              C := decide (d ≤ s.A)
              Z := decide (s.A = d)
              N := decide (0 < res &&& 0x80) }, noop)
  | .Cpx, mode => do
      let (addr, s) ← s.fetch_addr mode
      let d ← s.read addr
      let res := (s.X + 256 - d) % 256
      .ok ({ s with
              C := decide (d ≤ s.X)
              Z := decide (s.X = d)
              N := decide (0 < res &&& 0x80) }, noop)
  | .Cpy, mode => do
      let (addr, s) ← s.fetch_addr mode
      let d ← s.read addr
      let res := (s.Y + 256 - d) % 256
      .ok ({ s with
              C := decide (d ≤ s.Y)
              Z := decide (s.Y = d)
              N := decide (0 < res &&& 0x80) }, noop)
  | .Inc, mode => do
      let (addr, s) ← s.fetch_addr mode
      let d ← s.read addr
      let d := (d + 1) % 256
      let s ← s.write addr d
      .ok (flagsZN s d, noop)
  | .Inx, _ => .ok (flagsZN { s with X := (s.X + 1) % 256 } ((s.X + 1) % 256), noop)
  | .Iny, _ => .ok (flagsZN { s with Y := (s.Y + 1) % 256 } ((s.Y + 1) % 256), noop)
  | .Dec, mode => do
      let (addr, s) ← s.fetch_addr mode
      let d ← s.read addr
      let d := (d + 255) % 256
      let s ← s.write addr d
      .ok (flagsZN s d, noop)
  | .Dex, _ => .ok (flagsZN { s with X := (s.X + 255) % 256 } ((s.X + 255) % 256), noop)
  | .Dey, _ => .ok (flagsZN { s with Y := (s.Y + 255) % 256 } ((s.Y + 255) % 256), noop)
  | .Asl, mode => do
      let (addrData : Option Nat × Nat × Cpu) ←
        match mode with
        | .accumulator => .ok (none, s.A, s)
        | _ => do
            let (addr, s) ← s.fetch_addr mode
            let d ← s.read addr
            .ok (some addr, d, s)
      let (addr, d, s) := addrData
      let s := { s with C := decide (0 < d &&& 0x80) }
      let d := (d <<< 1) % 256
      let s ← match addr with
        | some a => s.write a d
        | none => .ok { s with A := d }
      .ok ({ s with Z := decide (d = 0), N := decide (0 < d &&& 0x80) }, noop)
  | .Lsr, mode => do
      let (addrData : Option Nat × Nat × Cpu) ←
        match mode with
        | .accumulator => .ok (none, s.A, s)
        | _ => do
            let (addr, s) ← s.fetch_addr mode
            let d ← s.read addr
            .ok (some addr, d, s)
      let (addr, d, s) := addrData
      let s := { s with C := decide (0 < d &&& 0x01) }
      let d := d >>> 1
      let s ← match addr with
        | some a => s.write a d
        | none => .ok { s with A := d }
      .ok ({ s with Z := decide (d = 0), N := decide (0 < d &&& 0x80) }, noop)
  | .Rol, mode => do
      let (addrData : Option Nat × Nat × Cpu) ←
        match mode with
        | .accumulator => .ok (none, s.A, s)
        | _ => do
            let (addr, s) ← s.fetch_addr mode
            let d ← s.read addr
            .ok (some addr, d, s)
      let (addr, d, s) := addrData
      let old_c := s.C
      let s := { s with C := decide (0 < d &&& 0x80) }
      let d := (d <<< 1) % 256 + (if old_c then 1 else 0)
      let s ← match addr with
        | some a => s.write a d
        | none => .ok { s with A := d }
      .ok ({ s with Z := decide (d = 0), N := decide (0 < d &&& 0x80) }, noop)
  | .Ror, mode => do
      let (addrData : Option Nat × Nat × Cpu) ←
        match mode with
        | .accumulator => .ok (none, s.A, s)
        | _ => do
            let (addr, s) ← s.fetch_addr mode
            let d ← s.read addr
            .ok (some addr, d, s)
      let (addr, d, s) := addrData
      let old_c := s.C
      let s := { s with C := decide (0 < d &&& 0x01) }
      let d := if old_c then (d >>> 1) ||| 0x80 else d >>> 1
      let s ← match addr with
        | some a => s.write a d
        | none => .ok { s with A := d }
      .ok ({ s with Z := decide (d = 0), N := decide (0 < d &&& 0x80) }, noop)
  | .Jmp, .absolute => do
      let (w, s) ← s.fetch_word
      .ok ({ s with PC := w }, noop)
  | .Jmp, .indirect => do
      let (w, s) ← s.fetch_word
      let t ← s.read_word w
      .ok ({ s with PC := t }, noop)
  | .Jsr, _ => do
      let (new_pc, s) ← s.fetch_word
      let pcm1 ← u16sub s.PC 1
      let s ← s.stack_push (pcm1 >>> 8)
      let s ← s.stack_push (pcm1 &&& 0xFF)
      .ok ({ s with PC := new_pc }, noop)
  | .Rts, _ => do
      let (lo, s) ← s.stack_pop
      let (page, s) ← s.stack_pop
      let pc' ← u16add (Address.toWord (.full lo page)) 1
      .ok ({ s with PC := pc' }, noop)
  | .Bcc, _ => do
      let (taken, s) ← branchStep s (fun s => !s.C)
      .ok (s, if taken then noop + 1 else noop)
  | .Bcs, _ => do
      let (taken, s) ← branchStep s (fun s => s.C)
      .ok (s, if taken then noop + 1 else noop)
  | .Beq, _ => do
      let (taken, s) ← branchStep s (fun s => s.Z)
      .ok (s, if taken then noop + 1 else noop)
  | .Bmi, _ => do
      let (taken, s) ← branchStep s (fun s => s.N)
      .ok (s, if taken then noop + 1 else noop)
  | .Bne, _ => do
      let (taken, s) ← branchStep s (fun s => !s.Z)
      .ok (s, if taken then noop + 1 else noop)
  | .Bpl, _ => do
      let (taken, s) ← branchStep s (fun s => !s.N)
      .ok (s, if taken then noop + 1 else noop)
  | .Bvc, _ => do
      let (taken, s) ← branchStep s (fun s => !s.V)
      .ok (s, if taken then noop + 1 else noop)
  | .Bvs, _ => do
      let (taken, s) ← branchStep s (fun s => s.V)
      .ok (s, if taken then noop + 1 else noop)
  | .Clc, _ => .ok ({ s with C := false }, noop)
  | .Cld, _ => .ok ({ s with D := false }, noop)
  | .Cli, _ => .ok ({ s with I := false }, noop)
  | .Clv, _ => .ok ({ s with V := false }, noop)
  | .Sec, _ => .ok ({ s with C := true }, noop)
  | .Sed, _ => .error (.other "decimal Mode not supported")
  | .Sei, _ => .ok ({ s with I := true }, noop)
  | .Brk, _ => do
      let s ← interruptFn 0 s
      .ok (s, noop)
  | .Rti, _ => do
      let s := { s with I := false }
      let (st, s) ← s.stack_pop
      let s ← s.status_set st
      let (lo, s) ← s.stack_pop
      let (page, s) ← s.stack_pop
      let pc' ← u16add (Address.toWord (.full lo page)) 1
      .ok ({ s with PC := pc' }, noop)
  | .Nop, _ => .ok (s, noop)
  | .Jmp, _ => .error (.panic "not yet implemented")

/-- `Tickable::tick for Cpu`: burn a cycle in `Original(n)` mode with
`n > 0`; otherwise fetch, decode and execute one instruction, and in
`Original` mode store the remaining cycle count. -/
def tick (s0 : Cpu) : Except CpuErr Cpu :=
  match s0.mode with
  | .original (n + 1) => .ok { s0 with mode := .original n }
  | _ => do
    let (op, s) ← s0.fetch_op
    let noop := op.cycles.val - 1
    let (s, noop) ← execOp op.code op.mode noop s
    match s.mode with
    | .original _ => .ok { s with mode := .original noop }
    | .fast => .ok s

/-- `Cpu::tick_until_nop`'s loop, carrying the source's `count` variable.
The returned `Nat` instruments the number of `tick`s performed. -/
def tickUntilNopAux (count : Nat) (s : Cpu) : Except CpuErr (Cpu × Nat) :=
  match s.read_op with
  | .error e => .error e
  | .ok op =>
    if op.code = .Nop then .ok (s, 0)
    else if _h : 2000 < count + 1 then .error (.other "endless Loop")
    else
      match tick s with
      | .error e => .error e
      | .ok s' =>
        match tickUntilNopAux (count + 1) s' with
        | .ok (s'', n) => .ok (s'', n + 1)
        | .error e => .error e
termination_by 2001 - count
decreasing_by simp_wf; omega

/-- `Cpu::tick_until_nop`: loop until the byte at `PC` decodes to `NOP`,
giving up with an endless-loop error after the safety bound. -/
def tickUntilNop (s : Cpu) : Except CpuErr (Cpu × Nat) :=
  tickUntilNopAux 0 s

/-- `k`-fold iteration of `tick` (the states visited by the
`tick_until_nop` loop). -/
def iter : Nat → Cpu → Except CpuErr Cpu
  | 0, s => .ok s
  | k + 1, s =>
    match tick s with
    | .ok s' => iter k s'
    | .error e => .error e

/-! ### The bus (`src/hemul/src/bus.rs`) -/

/-- A device on the bus: its own `inside_bounds` check and its byte
contents (the `Index` view of an `Addressable`). -/
structure Device where
  inBounds : Nat → Bool
  data : Nat → Nat

/-- One entry of the `Bus` routing table: `(name, start, end, device)`. -/
structure Route where
  name : String
  start : Nat
  stop : Nat
  device : Device

/-- `Bus`: an ordered routing table. -/
structure Bus where
  devices : List Route

/-- Whether a route's inclusive `[start, end]` range contains `addr`
(the condition of the loops in `Index`/`IndexMut for Bus`). -/
def routeMatch (addr : Nat) (r : Route) : Bool :=
  decide (r.start ≤ addr ∧ addr ≤ r.stop)

/-- `Addressable::inside_bounds for Bus`: asks every *device* whether the
address is inside its own bounds — the route ranges are not consulted. -/
def Bus.insideBounds (bus : Bus) (addr : Nat) : Bool :=
  bus.devices.any fun r => r.device.inBounds addr

/-- `Index for Bus`: first route whose `[start, end]` contains the address;
`none` models the `panic!("Indexed to unknown device")` fall-through. -/
def Bus.index (bus : Bus) (addr : Nat) : Option Nat :=
  match bus.devices.find? (routeMatch addr) with
  | some r => some (r.device.data addr)
  | none => none

/-- `IndexMut for Bus` followed by the assignment: write through the first
route whose range contains the address; `none` models the panic. -/
def routesWrite (addr v : Nat) : List Route → Option (List Route)
  | [] => none
  | r :: rs =>
    if routeMatch addr r then
      some ({ r with device := { r.device with data := upd r.device.data addr v } } :: rs)
    else
      match routesWrite addr v rs with
      | some rs' => some (r :: rs')
      | none => none

/-- `Cpu::read` specialised to a `Bus` substrate: `inside_bounds` guard,
then `self.addr[addr]` (which can panic). -/
def cpuReadBus (bus : Bus) (addr : Nat) : Except CpuErr Nat :=
  if bus.insideBounds addr then
    match bus.index addr with
    | some b => .ok b
    | none => .error (.panic "Indexed to unknown device")
  else .error (.outOfBounds addr)

/-- `Cpu::write` specialised to a `Bus` substrate. -/
def cpuWriteBus (bus : Bus) (addr v : Nat) : Except CpuErr Bus :=
  if bus.insideBounds addr then
    match routesWrite addr v bus.devices with
    | some rs => .ok ⟨rs⟩
    | none => .error (.panic "Indexed to unknown device")
  else .error (.outOfBounds addr)

/-- The largest `end` observed over the routes (`Snapshottable for Bus`,
starting from `Word::MIN`). -/
def maxEnd (bus : Bus) : Nat :=
  bus.devices.foldl (fun e r => if e < r.stop then r.stop else e) 0

/-- The inner `for i in *start..=*end` loop of `Snapshottable for Bus`:
`dump[i] = device[i]`, where indexing `dump` out of range panics (`none`).
`fuel` is the number of remaining iterations. -/
def fillFrom (dev : Device) : Nat → Nat → List Nat → Option (List Nat)
  | _, 0, dump => some dump
  | i, fuel + 1, dump =>
    if i < dump.length then fillFrom dev (i + 1) fuel (dump.set i (dev.data i))
    else none

/-- `Snapshottable::snapshot for Bus`: a zero image of length `maxEnd`,
then each route's inclusive region copied from its device. -/
def Bus.snapshotFn (bus : Bus) : Option (List Nat) :=
  let dump := List.replicate (maxEnd bus) 0
  bus.devices.foldlM (fun d r => fillFrom r.device r.start (r.stop + 1 - r.start) d) dump

/-! ### Concrete states and projections used by witnesses and counterexamples -/

/-- A fully mapped CPU over zeroed memory, reset-like register state. -/
def base : Cpu := {
  inBounds := fun _ => true
  mem := fun _ => 0
  PC := 0x8000, SP := 0xFF, A := 0, X := 0, Y := 0
  C := false, Z := false, I := false, D := false, B := false, V := false, N := false
  mode := .fast }

/-- `BCS` with carry set and offset byte `0xFE` (δ = −2 as a signed byte)
at `$8000`. -/
def sBcs : Cpu :=
  { base with
      C := true
      mem := fun a => if a = 0x8000 then 0xB0 else if a = 0x8001 then 0xFE else 0 }

/-- `ADC #$80` with `A = $80`, carry clear, `V` clear: the signed-overflow
rule `(~(A XOR M) AND (A XOR result)) AND 0x80` is nonzero here. -/
def sAdcCx : Cpu :=
  { base with
      A := 0x80, C := false, V := false
      mem := fun a => if a = 0x8000 then 0x69 else if a = 0x8001 then 0x80 else 0 }

/-- A state about to take an IRQ from `PC = $1200` with vector `$1234`. -/
def sIntCx : Cpu :=
  { base with
      PC := 0x1200
      mem := fun a => if a = 0xFFFE then 0x34 else if a = 0xFFFF then 0x12 else 0 }

/-- An IRQ-then-RTI scenario: vector `$8000` holds an `RTI` opcode; several
flags set so that restoration is visible. -/
def sRtiW : Cpu :=
  { base with
      PC := 0x1234, C := true, Z := true, N := true
      mem := fun a =>
        if a = 0xFFFE then 0x00 else if a = 0xFFFF then 0x80 else
        if a = 0x8000 then 0x40 else 0 }

/-- Memory holding a `NOP` at `PC`. -/
def sNop : Cpu := { base with mem := fun _ => 0xEA }

/-- A flag assignment with the decimal flag set. -/
def sDtrue : Cpu := { base with D := true }

/-- An absolute-indexed operand `$FFFE` with `X = 5` (sum overflows `u16`). -/
def sAbsHi : Cpu :=
  { base with
      X := 5, Y := 5
      mem := fun a => if a = 0x8000 then 0xFE else if a = 0x8001 then 0xFF else 0 }

/-- An absolute-indexed operand `$1000` with `X = Y = 5`. -/
def sAbsLo : Cpu :=
  { base with
      X := 5, Y := 5
      mem := fun a => if a = 0x8000 then 0x00 else if a = 0x8001 then 0x10 else 0 }

/-- A device claiming every address as in-bounds (like a full `Memory`). -/
def devAll : Device := { inBounds := fun _ => true, data := fun _ => 7 }

/-- A bus routing only `[$0000, $000A]` to a device whose own bounds check
accepts everything. -/
def busCx : Bus := ⟨[⟨"mem", 0, 0x0A, devAll⟩]⟩

/-- A bus with a single route covering `[$0000, $0003]`. -/
def busC5 : Bus := ⟨[⟨"mem", 0, 3, devAll⟩]⟩

/-- Project the program counter out of a `tick` result. -/
def pcOf (r : Except CpuErr Cpu) : Option Nat :=
  match r with
  | .ok s => some s.PC
  | .error _ => none

/-- Project the overflow flag out of a `tick` result. -/
def vOf (r : Except CpuErr Cpu) : Option Bool :=
  match r with
  | .ok s => some s.V
  | .error _ => none

/-- Project a memory byte out of an execution result. -/
def memAt (r : Except CpuErr Cpu) (a : Nat) : Option Nat :=
  match r with
  | .ok s => some (s.mem a)
  | .error _ => none

/-! ### Arithmetic lemmas about the address primitives -/

lemma toWord_full_eq (lo hi : Nat) (h : lo < 256) :
    Address.toWord (.full lo hi) = 256 * hi + lo := by
  show (hi <<< 8) ||| lo = 256 * hi + lo
  apply Nat.eq_of_testBit_eq
  intro j
  have h256 : (256 : Nat) = 2 ^ 8 := by norm_num
  rw [Nat.testBit_lor, Nat.testBit_shiftLeft, h256,
    Nat.testBit_mul_pow_two_add hi (by simpa [h256] using h) j]
  by_cases hj : j < 8
  · simp [hj, Nat.not_le.mpr hj]
  · have hge : j ≥ 8 := Nat.not_lt.mp hj
    have : lo.testBit j = false := by
      apply Nat.testBit_lt_two_pow
      calc lo < 2 ^ 8 := by simpa [h256] using h
      _ ≤ 2 ^ j := Nat.pow_le_pow_right (by norm_num) hge
    simp [hj, hge, this]

lemma toWord_zero_eq (b : Nat) : Address.toWord (.zero b) = b := by
  show (0 <<< 8) ||| b = b
  simp

lemma and255 (w : Nat) : w &&& 0xFF = w % 256 := Nat.and_pow_two_sub_one_eq_mod w 8

lemma shr8 (w : Nat) : w >>> 8 = w / 256 := by
  rw [Nat.shiftRight_eq_div_pow]

lemma split_roundtrip (w : Nat) :
    Address.toWord (.full (w &&& 0xFF) (w >>> 8)) = w := by
  rw [toWord_full_eq _ _ (by rw [and255]; omega), and255, shr8]
  omega

lemma upd_eq (m : Nat → Nat) (a v : Nat) : upd m a v a = v := by
  simp [upd]

lemma upd_ne (m : Nat → Nat) (a v x : Nat) (h : x ≠ a) : upd m a v x = m x := by
  simp [upd, h]

lemma ok_bind {α β : Type} (a : α) (f : α → Except CpuErr β) :
    (Except.ok a : Except CpuErr α) >>= f = f a := rfl

lemma error_bind {α β : Type} (e : CpuErr) (f : α → Except CpuErr β) :
    (Except.error e : Except CpuErr α) >>= f = Except.error e := rfl

lemma tryIntoOp_adc_imm : tryIntoOp 0x69 = .ok ⟨.Adc, .immediate, .constant 2⟩ := rfl

lemma tryIntoOp_rti_eq : tryIntoOp 0x40 = .ok ⟨.Rti, .implicit, .constant 6⟩ := rfl

/-- Merging the two `overflowing_add` carry-outs of the `Adc` arm into the
carry of the 9-bit sum. -/
lemma carry_merge (a b c : Nat) (hc : c ≤ 1) :
    (decide (256 ≤ a + b) || decide (256 ≤ (a + b) % 256 + c)) = decide (256 ≤ a + b + c) := by
  rcases Nat.lt_or_ge (a + b) 256 with h | h
  · rw [Nat.mod_eq_of_lt h]
    have h2 : ¬ (256 ≤ a + b) := by omega
    simp [h2]
  · have h3 : 256 ≤ a + b + c := by omega
    simp [h, h3]

/-- For a byte value, `r & 0x80 > 0` is exactly `128 ≤ r`. -/
lemma and128_pos_iff (r : Nat) (h : r < 256) :
    decide (0 < r &&& 0x80) = decide (128 ≤ r) := by
  have h1 : r &&& 0x80 = (r.testBit 7).toNat * 128 := by
    have := Nat.and_two_pow r 7
    norm_num at this ⊢
    exact this
  rw [Nat.testBit_to_div_mod] at h1
  rcases Nat.lt_or_ge r 128 with hlt | hge
  · have : r / 128 % 2 = 0 := by omega
    simp [this] at h1
    simp [h1, hlt, Nat.not_le.mpr hlt]
  · have : r / 128 % 2 = 1 := by omega
    simp [this] at h1
    simp [h1, hge]

/-! ### Status-byte packing -/

lemma status_bits (s : Cpu) :
    decide (0 < s.status_get &&& C_FLAG) = s.C ∧
    decide (0 < s.status_get &&& Z_FLAG) = s.Z ∧
    decide (0 < s.status_get &&& I_FLAG) = s.I ∧
    decide (0 < s.status_get &&& D_FLAG) = s.D ∧
    decide (0 < s.status_get &&& B_FLAG) = s.B ∧
    decide (0 < s.status_get &&& V_FLAG) = s.V ∧
    decide (0 < s.status_get &&& N_FLAG) = s.N := by
  obtain ⟨ib, m, pc, sp, a, x, y, c, z, i, d, b, v, n, mo⟩ := s
  cases c <;> cases z <;> cases i <;> cases d <;> cases b <;> cases v <;> cases n <;>
    (simp [Cpu.status_get, C_FLAG, Z_FLAG, I_FLAG, D_FLAG, B_FLAG, V_FLAG, N_FLAG] <;> decide)

/-- Unpacking a packed status byte into any state restores the packing
state's seven flags, provided its decimal flag is clear (otherwise
`status_set` asserts). -/
lemma status_roundtrip (s t : Cpu) (hD : s.D = false) :
    t.status_set s.status_get =
      .ok { t with C := s.C, Z := s.Z, I := s.I, D := s.D, B := s.B, V := s.V, N := s.N } := by
  obtain ⟨hC, hZ, hI, hD', hB, hV, hN⟩ := status_bits s
  simp only [Cpu.status_set, hC, hZ, hI, hD', hB, hV, hN, hD]
  rfl

/-- C7 (amended): for every assignment of the seven status flags **with
`D = false`**, `status_set (status_get())` restores exactly the same flag
assignment.  (With `D = true` the `assert!(!self.D)` in `status_set`
panics, so packing and unpacking is not the identity there.) -/
theorem status_pack_unpack_involution (s : Cpu) (hD : s.D = false) :
    s.status_set s.status_get = .ok s := by
  rw [status_roundtrip s s hD]

/-- Witness for `status_pack_unpack_involution` at the concrete reset-like
state `base`. -/
theorem status_pack_unpack_involution_witness :
    base.D = false ∧ Cpu.status_set base base.status_get = .ok base :=
  ⟨rfl, status_pack_unpack_involution base rfl⟩

/-- C7 counterexample to the claim as stated: for the flag assignment with
`D = true`, `status_set (status_get())` is not the identity — it panics
(`assert!(!self.D)`), so the involution fails on 1 of the 128 assignments. -/
theorem status_set_decimal_panics_counterexample :
    Cpu.status_set sDtrue sDtrue.status_get =
      .error (.panic "Decimal Mode not supported") := rfl

/-! ### Stack discipline -/

/-- C6: for every byte `b` and initial `SP` (wrap-around included), with the
stack slot `$0100 | SP` mapped, `stack_push b` then `stack_pop` returns `b`
and restores `SP`; no stack-overflow error is ever signalled. -/
theorem stack_push_pop_roundtrip (s : Cpu) (b : Nat) (hb : b < 256) (hsp : s.SP < 256)
    (hmap : s.inBounds (Address.toWord (.full s.SP SP_PAGE)) = true) :
    ∃ s₁ s₂, s.stack_push b = .ok s₁ ∧ s₁.stack_pop = .ok (b, s₂) ∧ s₂.SP = s.SP := by
  have hsp' : ((s.SP + 255) % 256 + 1) % 256 = s.SP := by omega
  refine
    ⟨{ s with
        mem := upd s.mem (Address.toWord (.full s.SP SP_PAGE)) b
        SP := (s.SP + 255) % 256 },
      { s with
          mem := upd s.mem (Address.toWord (.full s.SP SP_PAGE)) b
          SP := s.SP },
      ?_, ?_, rfl⟩
  · simp only [Cpu.stack_push, Cpu.write, hmap, if_true]
    rfl
  · simp only [Cpu.stack_pop, Cpu.read, hsp']
    simp only [hmap, if_true, upd_eq]
    rfl

/-- Witness for `stack_push_pop_roundtrip`: `SP = $00` (the wrap-around
case) and `b = $AB` on the fully mapped `base` machine. -/
theorem stack_push_pop_roundtrip_witness :
    (0xAB : Nat) < 256 ∧ Cpu.SP { base with SP := 0 } < 256 ∧
    ∃ s₁ s₂, Cpu.stack_push { base with SP := 0 } 0xAB = .ok s₁ ∧
      s₁.stack_pop = .ok (0xAB, s₂) ∧ s₂.SP = Cpu.SP { base with SP := 0 } :=
  ⟨by decide, by decide, stack_push_pop_roundtrip { base with SP := 0 } 0xAB (by decide) (by decide) rfl⟩

/-! ### Branches (C1) and ADC (C2) -/

/-- C1 (code bug): executing `BCS` with carry set and offset byte `$FE`
(δ = −2 as a signed byte) at `$8000` sets `PC` to `$8100` — the offset byte
is added as an *unsigned* value (`i32::from` of a `u8` in the `branch!`
macro), so a taken branch with a negative offset moves the PC forwards by
`offset` instead of backwards; the sign-extended target `$8000` is not
reached. -/
theorem bcs_negative_offset_moves_pc_forward :
    pcOf (tick sBcs) = some 0x8100 ∧ pcOf (tick sBcs) ≠ some 0x8000 :=
  ⟨rfl, by decide⟩

/-- C2 counterexample to the claim as stated: for `A = $80`, `M = $80`,
`C = 0` and `V` initially clear, the signed-overflow rule
`(~(A XOR M) AND (A XOR result)) AND 0x80` is nonzero (second conjunct), so
the claim requires `V = true` after `ADC`; the code leaves `V = false` —
the `Adc` arm of `Cpu::tick` never touches `V`. -/
theorem adc_overflow_flag_counterexample :
    vOf (tick sAdcCx) = some false ∧
    0 < ((0xFF ^^^ (0x80 ^^^ 0x80)) &&& (0x80 ^^^ 0x00) &&& 0x80) :=
  ⟨rfl, by decide⟩

/-- C2 (amended): executing `ADC` (immediate) on byte values sets the
accumulator to `(A + M + C) mod 256`, `C` to the carry of the 9-bit sum,
`Z` iff the result is zero, `N` iff bit 7 of the result is set (for a byte
result, `128 ≤ r`), and **leaves `V` unchanged** (the code does not
implement the signed-overflow rule). -/
theorem adc_flags_spec (s : Cpu) (M : Nat)
    (hmode : s.mode = .fast)
    (hin0 : s.inBounds s.PC = true) (hin1 : s.inBounds (s.PC + 1) = true)
    (hop : s.mem s.PC = 0x69) (hM : s.mem (s.PC + 1) = M)
    (_hA : s.A < 256) (_hM : M < 256) (hpc : s.PC + 2 ≤ 0xFFFF) :
    ∃ s', tick s = .ok s' ∧
      s'.A = (s.A + M + (if s.C then 1 else 0)) % 256 ∧
      s'.C = decide (256 ≤ s.A + M + (if s.C then 1 else 0)) ∧
      s'.Z = decide ((s.A + M + (if s.C then 1 else 0)) % 256 = 0) ∧
      s'.N = decide (128 ≤ (s.A + M + (if s.C then 1 else 0)) % 256) ∧
      s'.V = s.V ∧ s'.PC = s.PC + 2 := by
  have h1 : s.PC + 1 ≤ 0xFFFF := by omega
  have h2 : s.PC + 1 + 1 ≤ 0xFFFF := by omega
  simp only [tick, hmode]
  simp only [Cpu.fetch_op, Cpu.read_op, Cpu.read, hin0, if_true, hop, tryIntoOp_adc_imm,
    u16add, h1, if_true, ok_bind, Cycles.val,
    execOp, Cpu.fetch_addr, h2, hin1, hM]
  have hsimp : s.PC + 1 + 1 - 1 = s.PC + 1 := by omega
  simp only [hsimp, hin1, if_true, hM, ok_bind, flagsZN, hmode]
  have hmod : ((s.A + M) % 256 + if s.C = true then 1 else 0) % 256
      = (s.A + M + if s.C = true then 1 else 0) % 256 := by
    cases s.C <;> simp <;> omega
  refine ⟨_, rfl, ?_, ?_, ?_, ?_, rfl, rfl⟩
  · exact hmod
  · exact carry_merge s.A M _ (by cases s.C <;> simp)
  · rw [hmod]
  · rw [hmod, and128_pos_iff _ (by omega)]

/-- Witness for `adc_flags_spec` at the concrete state `sAdcCx`
(`A = M = $80`, carry clear). -/
theorem adc_flags_spec_witness :
    Cpu.mode sAdcCx = Mode.fast ∧ Cpu.mem sAdcCx (Cpu.PC sAdcCx) = 0x69 ∧
    ∃ s', tick sAdcCx = .ok s' ∧
      s'.A = (Cpu.A sAdcCx + 0x80 + (if Cpu.C sAdcCx then 1 else 0)) % 256 ∧
      s'.C = decide (256 ≤ Cpu.A sAdcCx + 0x80 + (if Cpu.C sAdcCx then 1 else 0)) ∧
      s'.Z = decide ((Cpu.A sAdcCx + 0x80 + (if Cpu.C sAdcCx then 1 else 0)) % 256 = 0) ∧
      s'.N = decide (128 ≤ (Cpu.A sAdcCx + 0x80 + (if Cpu.C sAdcCx then 1 else 0)) % 256) ∧
      s'.V = Cpu.V sAdcCx ∧ s'.PC = Cpu.PC sAdcCx + 2 :=
  ⟨rfl, by decide,
    adc_flags_spec sAdcCx 0x80 rfl rfl rfl (by decide) (by decide) (by decide) (by decide) (by decide)⟩

/-! ### Bus routing and snapshot (C4, C5) -/

/-- The `IndexMut for Bus` loop falls through to the panic exactly when the
`Index` loop does: no route range contains the address. -/
lemma routesWrite_none_iff (addr v : Nat) (rs : List Route) :
    routesWrite addr v rs = none ↔ rs.find? (routeMatch addr) = none := by
  induction rs with
  | nil => simp [routesWrite]
  | cons r rs ih =>
    by_cases h : routeMatch addr r
    · simp [routesWrite, h, List.find?]
    · simp only [routesWrite, h, if_false, Bool.false_eq_true, List.find?_cons_of_neg _ h]
      rw [← ih]
      cases routesWrite addr v rs <;> simp

/-- C4 (amended): a CPU read or write through the bus returns the typed
error `OutOfBounds(addr)` exactly when *no connected device's own*
`inside_bounds` accepts the address; when some device accepts the address
but no route's inclusive `[start, end]` range contains it, the access
panics (`"Indexed to unknown device"`) instead of returning a typed
error. -/
theorem bus_out_of_bounds_spec (bus : Bus) (addr v : Nat) :
    (bus.insideBounds addr = false →
      cpuReadBus bus addr = .error (.outOfBounds addr) ∧
      cpuWriteBus bus addr v = .error (.outOfBounds addr)) ∧
    (bus.insideBounds addr = true → bus.devices.find? (routeMatch addr) = none →
      cpuReadBus bus addr = .error (.panic "Indexed to unknown device") ∧
      cpuWriteBus bus addr v = .error (.panic "Indexed to unknown device")) := by
  constructor
  · intro h
    simp [cpuReadBus, cpuWriteBus, h]
  · intro h hf
    have hw : routesWrite addr v bus.devices = none := (routesWrite_none_iff addr v _).mpr hf
    simp [cpuReadBus, cpuWriteBus, Bus.index, h, hf, hw]

/-- Witness for `bus_out_of_bounds_spec`: the empty bus at address 5
(typed `OutOfBounds`), and `busCx` at address 32 (device claims the
address, no route covers it: panic). -/
theorem bus_out_of_bounds_spec_witness :
    (Bus.insideBounds ⟨[]⟩ 5 = false ∧
      cpuReadBus ⟨[]⟩ 5 = .error (.outOfBounds 5) ∧
      cpuWriteBus ⟨[]⟩ 5 1 = .error (.outOfBounds 5)) ∧
    (Bus.insideBounds busCx 32 = true ∧
      cpuReadBus busCx 32 = .error (.panic "Indexed to unknown device") ∧
      cpuWriteBus busCx 32 1 = .error (.panic "Indexed to unknown device")) :=
  ⟨⟨rfl, (bus_out_of_bounds_spec ⟨[]⟩ 5 1).1 rfl⟩,
   ⟨rfl, (bus_out_of_bounds_spec busCx 32 1).2 rfl rfl⟩⟩

/-- C4 counterexample to the claim as stated: on `busCx` (one route
`[$0000, $000A]` over a device whose own bounds check accepts everything),
reading address 32 — outside every route range — panics rather than
returning `OutOfBounds(32)`. -/
theorem bus_unrouted_read_panics_counterexample :
    cpuReadBus busCx 32 = .error (.panic "Indexed to unknown device") ∧
    cpuReadBus busCx 32 ≠ .error (.outOfBounds 32) := by
  refine ⟨rfl, fun h => ?_⟩
  have h0 : (Except.error (CpuErr.panic "Indexed to unknown device") : Except CpuErr Nat)
      = .error (.outOfBounds 32) := by
    calc (Except.error (CpuErr.panic "Indexed to unknown device") : Except CpuErr Nat)
        = cpuReadBus busCx 32 := rfl
    _ = .error (.outOfBounds 32) := h
  simp at h0

/-- C5 (code bug): on a bus with one connected route `[$0000, $0003]`,
`snapshot()` does not succeed: the dump is allocated with length
`maxEnd = 3` (`vec![0; end]`) but the fill loop writes the inclusive index
range `0..=3`, so indexing `dump[3]` is out of range and panics.  Every bus
with a route whose `start ≤ end` equals the largest end panics the same
way, so the claimed byte image is never produced. -/
theorem bus_snapshot_panics_on_covered_route :
    Bus.snapshotFn busC5 = none := rfl

/-! ### Absolute-indexed addressing and `read_word` bounds (C10) -/

/-- C10: `AbsoluteX`/`AbsoluteY` compute `base + index` as exact integers:
when `base + index ≤ 0xFFFF` the effective address is exactly `base + index`
(no wrap mod 2^16), and when the sum exceeds `0xFFFF` the checked `u16`
addition overflows (a panic under the debug profile) rather than producing
a wrapped in-range address; `read_word a` succeeds only for `a ≤ 0xFFFE`
(it reads `a` and `a + 1`), and errors at `a = 0xFFFF`. -/
theorem absolute_indexed_no_wrap (s : Cpu) (lo hi base : Nat)
    (hin0 : s.inBounds s.PC = true) (hin1 : s.inBounds (s.PC + 1) = true)
    (hlo : s.mem s.PC = lo) (hhi : s.mem (s.PC + 1) = hi)
    (hlo' : lo < 256) (hpc : s.PC + 2 ≤ 0xFFFF)
    (hbase : base = 256 * hi + lo) :
    (base + s.X ≤ 0xFFFF →
      s.fetch_addr .absoluteX = .ok (base + s.X, { s with PC := s.PC + 2 })) ∧
    (0xFFFF < base + s.X →
      s.fetch_addr .absoluteX = .error (.panic "attempt to add with overflow")) ∧
    (base + s.Y ≤ 0xFFFF →
      s.fetch_addr .absoluteY = .ok (base + s.Y, { s with PC := s.PC + 2 })) ∧
    (0xFFFF < base + s.Y →
      s.fetch_addr .absoluteY = .error (.panic "attempt to add with overflow")) ∧
    (∀ a, a ≤ 0xFFFE → s.inBounds a = true → s.inBounds (a + 1) = true →
      s.read_word a = .ok (Address.toWord (.full (s.mem a) (s.mem (a + 1))))) ∧
    s.read_word 0xFFFF = .error (.panic "attempt to add with overflow") := by
  have h1 : s.PC + 1 ≤ 0xFFFF := by omega
  have hword : s.fetch_word = .ok (base, { s with PC := s.PC + 2 }) := by
    simp only [Cpu.fetch_word, Cpu.read_word, u16add, h1, if_true, ok_bind,
      Cpu.read, hin0, hin1, hlo, hhi, hpc]
    rw [toWord_full_eq lo hi hlo', ← hbase]
  refine ⟨?_, ?_, ?_, ?_, ?_, ?_⟩
  · intro h
    simp only [Cpu.fetch_addr, hword, ok_bind, u16add, h, if_true]
  · intro h
    have h' : ¬ (base + s.X ≤ 0xFFFF) := by omega
    simp only [Cpu.fetch_addr, hword, ok_bind, u16add, h', if_false, error_bind]
  · intro h
    simp only [Cpu.fetch_addr, hword, ok_bind, u16add, h, if_true]
  · intro h
    have h' : ¬ (base + s.Y ≤ 0xFFFF) := by omega
    simp only [Cpu.fetch_addr, hword, ok_bind, u16add, h', if_false, error_bind]
  · intro a ha hia hia1
    have ha1 : a + 1 ≤ 0xFFFF := by omega
    simp only [Cpu.read_word, u16add, ha1, if_true, ok_bind, Cpu.read, hia, hia1]
  · have : ¬ ((0xFFFF : Nat) + 1 ≤ 0xFFFF) := by omega
    simp only [Cpu.read_word, u16add, this, if_false, error_bind]

/-- Witness for `absolute_indexed_no_wrap`: an in-range sum (`$1000 + 5`)
resolves exactly; the operand `$FFFE` with `X = 5` overflows; and
`read_word $FFFF` errors. -/
theorem absolute_indexed_no_wrap_witness :
    (Cpu.mem sAbsLo (Cpu.PC sAbsLo) = 0x00 ∧
      Cpu.fetch_addr sAbsLo .absoluteX = .ok (0x1000 + Cpu.X sAbsLo, { sAbsLo with PC := Cpu.PC sAbsLo + 2 })) ∧
    (Cpu.mem sAbsHi (Cpu.PC sAbsHi) = 0xFE ∧
      Cpu.fetch_addr sAbsHi .absoluteX = .error (.panic "attempt to add with overflow")) ∧
    Cpu.read_word sAbsHi 0xFFFF = .error (.panic "attempt to add with overflow") :=
  ⟨⟨rfl, (absolute_indexed_no_wrap sAbsLo 0x00 0x10 0x1000 rfl rfl rfl rfl (by decide) (by decide)
      (by decide)).1 (by decide)⟩,
   ⟨rfl, (absolute_indexed_no_wrap sAbsHi 0xFE 0xFF 0xFFFE rfl rfl rfl rfl (by decide) (by decide)
      (by decide)).2.1 (by decide)⟩,
   (absolute_indexed_no_wrap sAbsHi 0xFE 0xFF 0xFFFE rfl rfl rfl rfl (by decide) (by decide)
      (by decide)).2.2.2.2.2⟩

/-! ### Interrupts (C3, C9) -/

lemma stack_addr_eq (sp : Nat) (h : sp < 256) :
    Address.toWord (.full sp SP_PAGE) = 256 + sp := by
  rw [toWord_full_eq sp SP_PAGE h, SP_PAGE]

lemma status_get_upd_state (s : Cpu) (m : Nat → Nat) (sp pc : Nat) (hI : s.I = false) :
    Cpu.status_get { s with mem := m, SP := sp, PC := pc, I := false } = Cpu.status_get s := by
  rw [← hI]
  rfl

/-- The full effect of `interrupt(IRQ)` when `I` is clear: push the page
and then the low byte of `PC - 1` and then the packed status, load `PC`
from the vector at `$FFFE`, drop `SP` by three (wrapping), set `I`. -/
lemma interrupt_spec (s : Cpu) (hI : s.I = false) (hPC : 1 ≤ s.PC) (hSP : s.SP < 256)
    (h1 : s.inBounds (256 + s.SP) = true)
    (h2 : s.inBounds (256 + (s.SP + 255) % 256) = true)
    (h3 : s.inBounds (256 + (s.SP + 254) % 256) = true)
    (hv1 : s.inBounds 0xFFFE = true) (hv2 : s.inBounds 0xFFFF = true) :
    interruptFn 0 s = .ok { s with
      mem := upd (upd (upd s.mem (256 + s.SP) ((s.PC - 1) >>> 8))
                      (256 + (s.SP + 255) % 256) ((s.PC - 1) &&& 0xFF))
                 (256 + (s.SP + 254) % 256) s.status_get
      SP := (s.SP + 253) % 256
      PC := Address.toWord (.full (s.mem 0xFFFE) (s.mem 0xFFFF))
      I := true } := by
  have ha1 : Address.toWord (.full s.SP SP_PAGE) = 256 + s.SP := stack_addr_eq _ hSP
  have e1 : (s.SP + 255) % 256 < 256 := by omega
  have ha2 : Address.toWord (.full ((s.SP + 255) % 256) SP_PAGE) = 256 + (s.SP + 255) % 256 :=
    stack_addr_eq _ e1
  have hsp2 : ((s.SP + 255) % 256 + 255) % 256 = (s.SP + 254) % 256 := by omega
  have e2 : (s.SP + 254) % 256 < 256 := by omega
  have ha3 : Address.toWord (.full ((s.SP + 254) % 256) SP_PAGE) = 256 + (s.SP + 254) % 256 :=
    stack_addr_eq _ e2
  have hsp3 : ((s.SP + 254) % 256 + 255) % 256 = (s.SP + 253) % 256 := by omega
  have hne1 : (0xFFFE : Nat) ≠ 256 + s.SP := by omega
  have hne2 : (0xFFFE : Nat) ≠ 256 + (s.SP + 255) % 256 := by omega
  have hne3 : (0xFFFF : Nat) ≠ 256 + s.SP := by omega
  have hne4 : (0xFFFF : Nat) ≠ 256 + (s.SP + 255) % 256 := by omega
  have hv : (0xFFFE : Nat) + 1 ≤ 0xFFFF := by omega
  have hstat := fun (m : Nat → Nat) (sp pc : Nat) => status_get_upd_state s m sp pc hI
  simp only [interruptFn, IRQB, hI, Bool.false_and, Bool.false_eq_true, if_false,
    u16sub, hPC, if_true, ok_bind,
    Cpu.stack_push, Cpu.write, ha1, h1, ha2, ha3,
    Cpu.read_word, Cpu.read, u16add, hv, hv1, hv2,
    hsp2, hsp3, h2, h3,
    upd_ne _ _ _ _ hne1, upd_ne _ _ _ _ hne2, upd_ne _ _ _ _ hne3, upd_ne _ _ _ _ hne4,
    hstat]

/-- C3 (amended): with the stack page and vector mapped, `interrupt(IRQ)`
with `I = true` leaves the CPU unchanged; with `I = false` it pushes
`(PC − 1)`-high, then `(PC − 1)`-low (not the bytes of `PC` itself), then
the packed status byte, sets `I`, drops `SP` by three (wrapping) and loads
`PC` from the little-endian word at `$FFFE`; `A`, `X`, `Y` are untouched.
(The pushed word is `PC - 1`, whose `u16` subtraction also requires
`PC ≥ 1`.) -/
theorem irq_interrupt_spec (s : Cpu) (hPC : 1 ≤ s.PC) (hSP : s.SP < 256)
    (h1 : s.inBounds (256 + s.SP) = true)
    (h2 : s.inBounds (256 + (s.SP + 255) % 256) = true)
    (h3 : s.inBounds (256 + (s.SP + 254) % 256) = true)
    (hv1 : s.inBounds 0xFFFE = true) (hv2 : s.inBounds 0xFFFF = true) :
    (s.I = true → interruptFn 0 s = .ok s) ∧
    (s.I = false → ∃ s', interruptFn 0 s = .ok s' ∧
      s'.mem (256 + s.SP) = (s.PC - 1) >>> 8 ∧
      s'.mem (256 + (s.SP + 255) % 256) = (s.PC - 1) &&& 0xFF ∧
      s'.mem (256 + (s.SP + 254) % 256) = s.status_get ∧
      s'.SP = (s.SP + 253) % 256 ∧ s'.I = true ∧
      s'.PC = Address.toWord (.full (s.mem 0xFFFE) (s.mem 0xFFFF)) ∧
      s'.A = s.A ∧ s'.X = s.X ∧ s'.Y = s.Y) := by
  constructor
  · intro hI
    simp [interruptFn, hI]
  · intro hI
    refine ⟨_, interrupt_spec s hI hPC hSP h1 h2 h3 hv1 hv2, ?_, ?_, ?_, rfl, rfl, rfl, rfl, rfl, rfl⟩
    · have d1 : (256 + s.SP : Nat) ≠ 256 + (s.SP + 254) % 256 := by omega
      have d2 : (256 + s.SP : Nat) ≠ 256 + (s.SP + 255) % 256 := by omega
      simp only [upd_ne _ _ _ _ d1, upd_ne _ _ _ _ d2, upd_eq]
    · have d1 : (256 + (s.SP + 255) % 256 : Nat) ≠ 256 + (s.SP + 254) % 256 := by omega
      simp only [upd_ne _ _ _ _ d1, upd_eq]
    · simp only [upd_eq]

/-- C3 counterexample to the claim as stated: taking an IRQ from
`PC = $1200` (with `SP = $FF`) stores `$11` — the high byte of `PC − 1 =
$11FF` — at the top of the stack, not `$12`, the high byte of `PC` the
claim requires. -/
theorem irq_pushes_decremented_pc_counterexample :
    memAt (interruptFn 0 sIntCx) 0x01FF = some 0x11 ∧
    memAt (interruptFn 0 sIntCx) 0x01FF ≠ some 0x12 :=
  ⟨rfl, by decide⟩

/-- Witness for `irq_interrupt_spec`: the masked case (`I = true` leaves
the state unchanged) and the concrete IRQ from `$1200` through the vector
`$1234`. -/
theorem irq_interrupt_spec_witness :
    (interruptFn 0 { sIntCx with I := true } = .ok { sIntCx with I := true }) ∧
    (1 ≤ Cpu.PC sIntCx ∧
      ∃ s', interruptFn 0 sIntCx = .ok s' ∧
        s'.mem (256 + Cpu.SP sIntCx) = (Cpu.PC sIntCx - 1) >>> 8 ∧
        s'.mem (256 + (Cpu.SP sIntCx + 255) % 256) = (Cpu.PC sIntCx - 1) &&& 0xFF ∧
        s'.mem (256 + (Cpu.SP sIntCx + 254) % 256) = Cpu.status_get sIntCx ∧
        s'.SP = (Cpu.SP sIntCx + 253) % 256 ∧ s'.I = true ∧
        s'.PC = Address.toWord (.full (Cpu.mem sIntCx 0xFFFE) (Cpu.mem sIntCx 0xFFFF)) ∧
        s'.A = Cpu.A sIntCx ∧ s'.X = Cpu.X sIntCx ∧ s'.Y = Cpu.Y sIntCx) :=
  ⟨(irq_interrupt_spec { sIntCx with I := true } (by decide) (by decide) rfl rfl rfl rfl rfl).1 rfl,
   by decide,
   (irq_interrupt_spec sIntCx (by decide) (by decide) rfl rfl rfl rfl rfl).2 rfl⟩

/-- C9: from a state with `I = false`, `D = false`, `PC ∈ [1, $FFFF]`, the
stack page slots and the IRQ vector mapped, and an `RTI` opcode stored at
the vector target `T` (outside the zero/stack pages, with `T + 1` in
range): `interrupt(IRQ)` followed by one `tick` executing that `RTI`
restores `PC`, `SP` and all seven status flags exactly — the `PC − 1`
pushed by `interrupt` and the `+ 1` added by `RTI` cancel — and `A`, `X`,
`Y` are unchanged throughout. -/
theorem irq_rti_roundtrip (s : Cpu) (T : Nat) (hmode : s.mode = .fast)
    (hI : s.I = false) (hD : s.D = false)
    (hPC : 1 ≤ s.PC) (hPCmax : s.PC ≤ 0xFFFF) (hSP : s.SP < 256)
    (h1 : s.inBounds (256 + s.SP) = true)
    (h2 : s.inBounds (256 + (s.SP + 255) % 256) = true)
    (h3 : s.inBounds (256 + (s.SP + 254) % 256) = true)
    (hv1 : s.inBounds 0xFFFE = true) (hv2 : s.inBounds 0xFFFF = true)
    (hT : Address.toWord (.full (s.mem 0xFFFE) (s.mem 0xFFFF)) = T)
    (hT511 : 511 < T) (hTmax : T + 1 ≤ 0xFFFF)
    (hTin : s.inBounds T = true) (hTrti : s.mem T = 0x40) :
    ∃ s₁ s₂, interruptFn 0 s = .ok s₁ ∧ tick s₁ = .ok s₂ ∧
      s₁.A = s.A ∧ s₁.X = s.X ∧ s₁.Y = s.Y ∧
      s₂.PC = s.PC ∧ s₂.SP = s.SP ∧
      s₂.C = s.C ∧ s₂.Z = s.Z ∧ s₂.I = s.I ∧ s₂.D = s.D ∧
      s₂.B = s.B ∧ s₂.V = s.V ∧ s₂.N = s.N ∧
      s₂.A = s.A ∧ s₂.X = s.X ∧ s₂.Y = s.Y := by
  have hint := interrupt_spec s hI hPC hSP h1 h2 h3 hv1 hv2
  rw [hT] at hint
  refine ⟨_,
    { s with
        mem :=
          upd (upd (upd s.mem (256 + s.SP) ((s.PC - 1) >>> 8))
            (256 + (s.SP + 255) % 256) ((s.PC - 1) &&& 0xFF))
            (256 + (s.SP + 254) % 256) s.status_get },
    hint, ?_, rfl, rfl, rfl, rfl, rfl, rfl, rfl, rfl, rfl, rfl, rfl, rfl, rfl, rfl, rfl⟩
  have e1 : (s.SP + 255) % 256 < 256 := by omega
  have e2 : (s.SP + 254) % 256 < 256 := by omega
  have hTa1 : T ≠ 256 + s.SP := by omega
  have hTa2 : T ≠ 256 + (s.SP + 255) % 256 := by omega
  have hTa3 : T ≠ 256 + (s.SP + 254) % 256 := by omega
  have hM3T : upd (upd (upd s.mem (256 + s.SP) ((s.PC - 1) >>> 8))
      (256 + (s.SP + 255) % 256) ((s.PC - 1) &&& 0xFF))
      (256 + (s.SP + 254) % 256) s.status_get T = 0x40 := by
    rw [upd_ne _ _ _ _ hTa3, upd_ne _ _ _ _ hTa2, upd_ne _ _ _ _ hTa1, hTrti]
  have hsp4 : ((s.SP + 253) % 256 + 1) % 256 = (s.SP + 254) % 256 := by omega
  have hsp5 : ((s.SP + 254) % 256 + 1) % 256 = (s.SP + 255) % 256 := by omega
  have hsp6 : ((s.SP + 255) % 256 + 1) % 256 = s.SP := by omega
  have ha1 : Address.toWord (.full s.SP SP_PAGE) = 256 + s.SP := stack_addr_eq _ hSP
  have ha2 : Address.toWord (.full ((s.SP + 255) % 256) SP_PAGE) = 256 + (s.SP + 255) % 256 :=
    stack_addr_eq _ e1
  have ha3 : Address.toWord (.full ((s.SP + 254) % 256) SP_PAGE) = 256 + (s.SP + 254) % 256 :=
    stack_addr_eq _ e2
  have d32 : (256 + (s.SP + 255) % 256 : Nat) ≠ 256 + (s.SP + 254) % 256 := by omega
  have d31 : (256 + s.SP : Nat) ≠ 256 + (s.SP + 254) % 256 := by omega
  have d21 : (256 + s.SP : Nat) ≠ 256 + (s.SP + 255) % 256 := by omega
  have hm_a3 : upd (upd (upd s.mem (256 + s.SP) ((s.PC - 1) >>> 8))
      (256 + (s.SP + 255) % 256) ((s.PC - 1) &&& 0xFF))
      (256 + (s.SP + 254) % 256) s.status_get (256 + (s.SP + 254) % 256) = s.status_get :=
    upd_eq _ _ _
  have hm_a2 : upd (upd (upd s.mem (256 + s.SP) ((s.PC - 1) >>> 8))
      (256 + (s.SP + 255) % 256) ((s.PC - 1) &&& 0xFF))
      (256 + (s.SP + 254) % 256) s.status_get (256 + (s.SP + 255) % 256)
      = (s.PC - 1) &&& 0xFF := by
    rw [upd_ne _ _ _ _ d32, upd_eq]
  have hm_a1 : upd (upd (upd s.mem (256 + s.SP) ((s.PC - 1) >>> 8))
      (256 + (s.SP + 255) % 256) ((s.PC - 1) &&& 0xFF))
      (256 + (s.SP + 254) % 256) s.status_get (256 + s.SP) = (s.PC - 1) >>> 8 := by
    rw [upd_ne _ _ _ _ d31, upd_ne _ _ _ _ d21, upd_eq]
  have hst := fun t => status_roundtrip s t hD
  have hpcadd : s.PC - 1 + 1 ≤ 0xFFFF := by omega
  have hpcfix : s.PC - 1 + 1 = s.PC := by omega
  simp only [tick, hmode, Cpu.fetch_op, Cpu.read_op, Cpu.read, hTin, if_true, hM3T,
    tryIntoOp_rti_eq, ok_bind, u16add, hTmax, Cycles.val, execOp,
    Cpu.stack_pop, hsp4, hsp5, hsp6, ha1, ha2, ha3, h1, h2, h3,
    hm_a3, hm_a2, hm_a1, hst, split_roundtrip, hpcadd, hpcfix, hPCmax]

/-- Witness for `irq_rti_roundtrip`: the concrete machine `sRtiW`
(`PC = $1234`, `C = Z = N = 1`, vector `$8000` holding `RTI`). -/
theorem irq_rti_roundtrip_witness :
    Cpu.I sRtiW = false ∧ Cpu.D sRtiW = false ∧ Cpu.mem sRtiW 0x8000 = 0x40 ∧
    ∃ s₁ s₂, interruptFn 0 sRtiW = .ok s₁ ∧ tick s₁ = .ok s₂ ∧
      s₁.A = Cpu.A sRtiW ∧ s₁.X = Cpu.X sRtiW ∧ s₁.Y = Cpu.Y sRtiW ∧
      s₂.PC = Cpu.PC sRtiW ∧ s₂.SP = Cpu.SP sRtiW ∧
      s₂.C = Cpu.C sRtiW ∧ s₂.Z = Cpu.Z sRtiW ∧ s₂.I = Cpu.I sRtiW ∧ s₂.D = Cpu.D sRtiW ∧
      s₂.B = Cpu.B sRtiW ∧ s₂.V = Cpu.V sRtiW ∧ s₂.N = Cpu.N sRtiW ∧
      s₂.A = Cpu.A sRtiW ∧ s₂.X = Cpu.X sRtiW ∧ s₂.Y = Cpu.Y sRtiW :=
  ⟨rfl, rfl, by decide,
    irq_rti_roundtrip sRtiW 0x8000 rfl rfl rfl (by decide) (by decide) (by decide)
      rfl rfl rfl rfl rfl (by decide) (by decide) (by decide) rfl (by decide)⟩

/-! ### `tick_until_nop` (C8) -/

/-- When the byte at `PC` decodes to `NOP` (`$EA`), the loop returns `Ok`
at once, executing nothing, at any loop counter. -/
lemma tun_nop_now (s : Cpu) (hin : s.inBounds s.PC = true) (hop : s.mem s.PC = 0xEA) :
    ∀ count, tickUntilNopAux count s = .ok (s, 0) := by
  intro count
  rw [tickUntilNopAux]
  simp only [Cpu.read_op, Cpu.read, hin, if_true, hop, ok_bind]
  rfl

/-- A successful run starting at loop counter `count` performs at most
`2000 - count` ticks. -/
lemma tun_bound : ∀ (k count : Nat) (s s' : Cpu) (n : Nat), 2001 - count ≤ k →
    tickUntilNopAux count s = .ok (s', n) → n ≤ 2000 - count := by
  intro k
  induction k with
  | zero =>
    intro count s s' n hk h
    rw [tickUntilNopAux] at h
    match hro : s.read_op with
    | .error e => rw [hro] at h; exact absurd h (by simp)
    | .ok op =>
      rw [hro] at h
      by_cases hnop : op.code = .Nop
      · simp only [hnop, if_true] at h
        have : n = 0 := by
          cases h
          rfl
        omega
      · simp only [hnop, if_false] at h
        have hcount : 2000 < count + 1 := by omega
        rw [dif_pos hcount] at h
        exact absurd h (by simp)
  | succ k ih =>
    intro count s s' n hk h
    rw [tickUntilNopAux] at h
    match hro : s.read_op with
    | .error e => rw [hro] at h; exact absurd h (by simp)
    | .ok op =>
      rw [hro] at h
      by_cases hnop : op.code = .Nop
      · simp only [hnop, if_true] at h
        have : n = 0 := by cases h; rfl
        omega
      · simp only [hnop, if_false] at h
        by_cases hcount : 2000 < count + 1
        · rw [dif_pos hcount] at h
          exact absurd h (by simp)
        · rw [dif_neg hcount] at h
          match htick : tick s with
          | .error e => rw [htick] at h; exact absurd h (by simp)
          | .ok s₁ =>
            rw [htick] at h
            dsimp only at h
            match haux : tickUntilNopAux (count + 1) s₁ with
            | .error e => rw [haux] at h; exact absurd h (by simp)
            | .ok (s'', m) =>
              rw [haux] at h
              have hm := ih (count + 1) s₁ s'' m (by omega) haux
              have : n = m + 1 := by cases h; rfl
              omega

/-- If every state reachable within the remaining budget decodes to a
non-`NOP` opcode, the loop trips its safety bound. -/
lemma tun_endless : ∀ (k count : Nat) (s : Cpu), count ≤ 2000 → 2000 - count ≤ k →
    (∀ j, j ≤ 2000 - count → ∃ s' op, iter j s = .ok s' ∧ Cpu.read_op s' = .ok op ∧
      op.code ≠ .Nop) →
    tickUntilNopAux count s = .error (.other "endless Loop") := by
  intro k
  induction k with
  | zero =>
    intro count s hc hk H
    obtain ⟨s', op, hiter, hro, hnop⟩ := H 0 (by omega)
    have h0 : iter 0 s = .ok s := rfl
    rw [h0] at hiter
    have hss : s = s' := Except.ok.inj hiter
    rw [← hss] at hro
    rw [tickUntilNopAux, hro]
    simp only [hnop, if_false]
    have hcount : 2000 < count + 1 := by omega
    rw [dif_pos hcount]
  | succ k ih =>
    intro count s hc hk H
    obtain ⟨s', op, hiter, hro, hnop⟩ := H 0 (by omega)
    have h0 : iter 0 s = .ok s := rfl
    rw [h0] at hiter
    have hss : s = s' := Except.ok.inj hiter
    rw [← hss] at hro
    rw [tickUntilNopAux, hro]
    simp only [hnop, if_false]
    by_cases hcount : 2000 < count + 1
    · rw [dif_pos hcount]
    · rw [dif_neg hcount]
      have hc1 : count + 1 ≤ 2000 := by omega
      match htick : tick s with
      | .error e =>
        obtain ⟨s₁, op₁, hiter1, _, _⟩ := H 1 (by omega)
        have : iter 1 s = .error e := by
          show (match tick s with | .ok s' => iter 0 s' | .error e => .error e) = _
          rw [htick]
        rw [this] at hiter1
        exact absurd hiter1 (by simp)
      | .ok s₁ =>
        have hstep : ∀ j, iter (j + 1) s = iter j s₁ := by
          intro j
          show (match tick s with | .ok s' => iter j s' | .error e => .error e) = _
          rw [htick]
        have H1 : ∀ j, j ≤ 2000 - (count + 1) → ∃ s' op, iter j s₁ = .ok s' ∧
            Cpu.read_op s' = .ok op ∧ op.code ≠ .Nop := by
          intro j hj
          obtain ⟨s', op', h1, h2, h3⟩ := H (j + 1) (by omega)
          rw [hstep j] at h1
          exact ⟨s', op', h1, h2, h3⟩
        dsimp only
        rw [ih (count + 1) s₁ hc1 (by omega) H1]

/-- C8: `tick_until_nop` (i) returns `Ok` as soon as the byte at `PC`
decodes to `NOP`, performing no tick and leaving the state unchanged;
(ii) never performs more than 2,000 ticks; and (iii) aborts with the
endless-loop error when every state reachable within the bound decodes to
a non-`NOP` opcode. -/
theorem tick_until_nop_spec :
    (∀ s : Cpu, s.inBounds s.PC = true → s.mem s.PC = 0xEA → tickUntilNop s = .ok (s, 0)) ∧
    (∀ (s s' : Cpu) (n : Nat), tickUntilNop s = .ok (s', n) → n ≤ 2000) ∧
    (∀ s : Cpu, (∀ j, j ≤ 2000 → ∃ s' op, iter j s = .ok s' ∧ Cpu.read_op s' = .ok op ∧
        op.code ≠ .Nop) →
      tickUntilNop s = .error (.other "endless Loop")) :=
  ⟨fun s hin hop => tun_nop_now s hin hop 0,
   fun s s' n h => by
     have := tun_bound 2001 0 s s' n (by omega) h
     omega,
   fun s H => tun_endless 2000 0 s (by omega) (by omega) H⟩

/-- Witness for `tick_until_nop_spec`: a machine whose memory is all
`NOP`s returns immediately with zero ticks, within the bound. -/
theorem tick_until_nop_spec_witness :
    Cpu.inBounds sNop (Cpu.PC sNop) = true ∧ Cpu.mem sNop (Cpu.PC sNop) = 0xEA ∧
    tickUntilNop sNop = .ok (sNop, 0) ∧ (0 : Nat) ≤ 2000 :=
  ⟨rfl, rfl, tick_until_nop_spec.1 sNop rfl rfl,
    tick_until_nop_spec.2.1 sNop sNop 0 (tick_until_nop_spec.1 sNop rfl rfl)⟩

end Hemul
